import Mathlib

/-!
Verification development for the rngast repository: a shallow embedding of
the RelaxNG AST (src/rngast.ts), the builder (src/relaxng-builder.ts), the
validator and the simplifier (src/rngast-validate.ts), and the simple-form
checker (src/simple-rngast.ts), together with theorems about the spec
claims.

Modelling conventions:
  - A unist node is a record with a kind tag, an optional scalar string
    (the name of elementNamed / attributeNamed / ref / parentRef / define /
    name nodes, or the payload of value / data nodes), an optional combine
    attribute, and a list of children, exactly like the discriminated
    union in src/rngast.ts. The tag "attribute" is written attr because
    attribute is a Lean keyword.
  - Functions that can throw in TypeScript return Except String (the
    thrown message). JavaScript TypeErrors (reading a property of
    undefined, iterating a non-iterable) are modelled as errors whose
    message starts with "TypeError:".
  - The recursive validator can fail to terminate (see claim C9), so it is
    embedded with an explicit fuel parameter; running out of fuel is the
    distinguished error VErr.outOfFuel, separate from thrown exceptions.
  - The validator annotates XML nodes in place (addProblems writes into
    node.data.validation). The embedding threads an explicit annotation
    log: a list of (node, message) pairs in insertion order.
-/

/-- The combine attribute values of start / define nodes. -/
inductive CombineMethod where
  | choice
  | interleave
deriving DecidableEq, Repr

/-- The node kinds (the type tags) of the RelaxNG AST of src/rngast.ts.
The tag "attribute" is written attr because attribute is a Lean keyword. -/
inductive NodeKind where
  | root
  | grammar
  | start
  | define
  | elementNamed
  | element
  | attributeNamed
  | attr
  | group
  | interleave
  | choice
  | optional
  | zeroOrMore
  | oneOrMore
  | mixed
  | ref
  | parentRef
  | empty
  | text
  | value
  | data
  | notAllowed
  | name
  | anyName
  | nameChoice
  | exceptNameClass
deriving DecidableEq, Repr

/-- The JavaScript tag string of a node kind, used in error messages. -/
def NodeKind.tagName : NodeKind → String
  | .root => "root"
  | .grammar => "grammar"
  | .start => "start"
  | .define => "define"
  | .elementNamed => "elementNamed"
  | .element => "element"
  | .attributeNamed => "attributeNamed"
  | .attr => "attribute"
  | .group => "group"
  | .interleave => "interleave"
  | .choice => "choice"
  | .optional => "optional"
  | .zeroOrMore => "zeroOrMore"
  | .oneOrMore => "oneOrMore"
  | .mixed => "mixed"
  | .ref => "ref"
  | .parentRef => "parentRef"
  | .empty => "empty"
  | .text => "text"
  | .value => "value"
  | .data => "data"
  | .notAllowed => "notAllowed"
  | .name => "name"
  | .anyName => "anyName"
  | .nameChoice => "nameChoice"
  | .exceptNameClass => "exceptNameClass"

/-- A RelaxNG AST node: kind tag, scalar string attribute (name or value,
"" when the kind carries none), optional combine attribute (only used by
start and define nodes), and ordered children. -/
inductive RNode where
  | mk (kind : NodeKind) (sval : String) (combine : Option CombineMethod)
       (children : List RNode)

mutual

/-- Decidable equality of RNode (the deriving handler does not support the
nested List RNode occurrence on this toolchain). -/
def RNode.decEq : (a b : RNode) → Decidable (a = b)
  | .mk k1 s1 c1 cs1, .mk k2 s2 c2 cs2 =>
    if hk : k1 = k2 then
      if hs : s1 = s2 then
        if hc : c1 = c2 then
          match RNode.decEqList cs1 cs2 with
          | isTrue hcs => isTrue (by rw [hk, hs, hc, hcs])
          | isFalse hcs => isFalse (by intro h; injection h; contradiction)
        else isFalse (by intro h; injection h; contradiction)
      else isFalse (by intro h; injection h; contradiction)
    else isFalse (by intro h; injection h; contradiction)

/-- Decidable equality of lists of RNode. -/
def RNode.decEqList : (as bs : List RNode) → Decidable (as = bs)
  | [], [] => isTrue rfl
  | [], _ :: _ => isFalse (by intro h; injection h)
  | _ :: _, [] => isFalse (by intro h; injection h)
  | a :: as, b :: bs =>
    match RNode.decEq a b, RNode.decEqList as bs with
    | isTrue h1, isTrue h2 => isTrue (by rw [h1, h2])
    | isFalse h1, _ => isFalse (by intro h; injection h; contradiction)
    | _, isFalse h2 => isFalse (by intro h; injection h; contradiction)

end

instance : DecidableEq RNode := RNode.decEq

/-- Kind projection. -/
def RNode.kind : RNode → NodeKind
  | .mk k _ _ _ => k

/-- Scalar string projection (name, or value payload). -/
def RNode.sval : RNode → String
  | .mk _ s _ _ => s

/-- Combine attribute projection. -/
def RNode.combine : RNode → Option CombineMethod
  | .mk _ _ c _ => c

/-- Children projection. -/
def RNode.children : RNode → List RNode
  | .mk _ _ _ cs => cs

/-- Rebuild a node with new children (models assigning node.children). -/
def RNode.setChildren : RNode → List RNode → RNode
  | .mk k s c _, cs => .mk k s c cs

/-- Rebuild a node with a new combine attribute. -/
def RNode.setCombine : RNode → Option CombineMethod → RNode
  | .mk k s _ cs, c => .mk k s c cs

/-!
Builders from src/relaxng-builder.ts. All are plain constructors; elem and
elemNamed append an empty child when given no pattern children, and attr /
attrNamed default their content child to text (the source uses a default
parameter; the embedding passes the child explicitly at call sites).
-/

namespace rb

def empty : RNode := .mk .empty "" none []

def text : RNode := .mk .text "" none []

def value (v : String) : RNode := .mk .value v none []

def elemNamed (elemName : String) (cs : List RNode) : RNode :=
  .mk .elementNamed elemName none (if cs.isEmpty then [empty] else cs)

def elem (elemNameClass : RNode) (cs : List RNode) : RNode :=
  .mk .element "" none (elemNameClass :: (if cs.isEmpty then [empty] else cs))

def attrNamed (attrName : String) (child : RNode) : RNode :=
  .mk .attributeNamed attrName none [child]

def attrP (nameClass : RNode) (child : RNode) : RNode :=
  .mk .attr "" none [nameClass, child]

def grammar (s : RNode) (defs : List RNode) : RNode :=
  .mk .grammar "" none (s :: defs)

def start (child : RNode) : RNode := .mk .start "" none [child]

def define (defName : String) (cs : List RNode) : RNode :=
  .mk .define defName none cs

def choice (cs : List RNode) : RNode := .mk .choice "" none cs

def group (cs : List RNode) : RNode := .mk .group "" none cs

def oneOrMore (cs : List RNode) : RNode := .mk .oneOrMore "" none cs

def zeroOrMore (cs : List RNode) : RNode := .mk .zeroOrMore "" none cs

def interleave (cs : List RNode) : RNode := .mk .interleave "" none cs

def mixed (cs : List RNode) : RNode := .mk .mixed "" none cs

def ref (refName : String) : RNode := .mk .ref refName none []

def optional (cs : List RNode) : RNode := .mk .optional "" none cs

def name (n : String) : RNode := .mk .name n none []

def notAllowed : RNode := .mk .notAllowed "" none []

/-- A root node (the RngRoot wrapper with a single pattern child). -/
def root (child : RNode) : RNode := .mk .root "" none [child]

end rb

/-!
The XML document tree consumed by the validator (xast nodes). Elements
carry a name, an attribute map (a JavaScript object: insertion-ordered,
unique string keys, string values) and children; text nodes carry a value;
all other node types (comments, instructions, ...) only matter through
their type tag, kept as a string.
-/

inductive XastNode where
  | element (ename : String) (attributes : List (String × String))
      (children : List XastNode)
  | text (v : String)
  | other (tag : String)

mutual

/-- Decidable equality of XastNode (hand-written for the nested list). -/
def XastNode.decEq : (a b : XastNode) → Decidable (a = b)
  | .element n1 a1 cs1, .element n2 a2 cs2 =>
    if hn : n1 = n2 then
      if ha : a1 = a2 then
        match XastNode.decEqList cs1 cs2 with
        | isTrue hcs => isTrue (by rw [hn, ha, hcs])
        | isFalse hcs => isFalse (by intro h; injection h; contradiction)
      else isFalse (by intro h; injection h; contradiction)
    else isFalse (by intro h; injection h; contradiction)
  | .text v1, .text v2 =>
    if hv : v1 = v2 then isTrue (by rw [hv])
    else isFalse (by intro h; injection h; contradiction)
  | .other t1, .other t2 =>
    if ht : t1 = t2 then isTrue (by rw [ht])
    else isFalse (by intro h; injection h; contradiction)
  | .element _ _ _, .text _ => isFalse (by intro h; injection h)
  | .element _ _ _, .other _ => isFalse (by intro h; injection h)
  | .text _, .element _ _ _ => isFalse (by intro h; injection h)
  | .text _, .other _ => isFalse (by intro h; injection h)
  | .other _, .element _ _ _ => isFalse (by intro h; injection h)
  | .other _, .text _ => isFalse (by intro h; injection h)

/-- Decidable equality of lists of XastNode. -/
def XastNode.decEqList : (as bs : List XastNode) → Decidable (as = bs)
  | [], [] => isTrue rfl
  | [], _ :: _ => isFalse (by intro h; injection h)
  | _ :: _, [] => isFalse (by intro h; injection h)
  | a :: as, b :: bs =>
    match XastNode.decEq a b, XastNode.decEqList as bs with
    | isTrue h1, isTrue h2 => isTrue (by rw [h1, h2])
    | isFalse h1, _ => isFalse (by intro h; injection h; contradiction)
    | _, isFalse h2 => isFalse (by intro h; injection h; contradiction)

end

instance : DecidableEq XastNode := XastNode.decEq

/-- The JavaScript type tag of an xast node. -/
def XastNode.typeName : XastNode → String
  | .element _ _ _ => "element"
  | .text _ => "text"
  | .other t => t

/-- Look up a key in an attribute map (the JavaScript in-operator plus
property read; keys are unique in a JavaScript object). -/
def attrsLookup (attrs : List (String × String)) (k : String) :
    Option String :=
  (attrs.find? (fun kv => kv.1 = k)).map (·.2)

/-- Remove a key from an attribute map (the object rest-spread in the
attributeNamed case); remaining insertion order is preserved. -/
def attrsRemove (attrs : List (String × String)) (k : String) :
    List (String × String) :=
  attrs.filter (fun kv => ¬ kv.1 = k)

/-- A problem message. -/
abbrev Problem := String

/-- The context of a recursive validation call: the children and the
attributes that remain to be matched. -/
structure Ctx where
  children : List XastNode
  attrs : List (String × String)
deriving DecidableEq

/-- The result triple of validateDetails: whether the head patterns
plausibly matched, the problems of the top-level matches, and the context
that remained unmatched. -/
structure VRes where
  ok : Bool
  problems : List Problem
  ctx : Ctx
deriving DecidableEq

/-- The annotation log: models the data.validation entries the source
pushes onto XML nodes, as (node, message) pairs in insertion order. -/
abbrev Log := List (XastNode × Problem)

/-- Validator failures: either a thrown JavaScript exception, or fuel
exhaustion (the modelled computation is still running). -/
inductive VErr where
  | outOfFuel
  | thrown (msg : String)
deriving DecidableEq

/-- Decidable equality for Except values, used to evaluate the embedded
functions on concrete inputs by decide. -/
instance {ε α : Type} [DecidableEq ε] [DecidableEq α] :
    DecidableEq (Except ε α) := fun a b =>
  match a, b with
  | .ok x, .ok y =>
    if h : x = y then isTrue (by rw [h])
    else isFalse (by intro hh; injection hh; contradiction)
  | .error e, .error f =>
    if h : e = f then isTrue (by rw [h])
    else isFalse (by intro hh; injection hh; contradiction)
  | .ok _, .error _ => isFalse (by intro h; injection h)
  | .error _, .ok _ => isFalse (by intro h; injection h)

/-- Outcome of a validator computation: result and updated log. -/
abbrev VOut := Except VErr (VRes × Log)

/-- The define table of a RelaxNgValidator: define name to the children
patterns of the define. -/
abbrev Defs := List (String × List RNode)

-- The fixed diagnostic message vocabulary (the exported expected object).
namespace expected

def text (found : String) : Problem := "Expected text but found " ++ found

def noText : Problem := "Unexpected text in element"

def elem (ename found : String) : Problem :=
  "Expected element " ++ ename ++ " but found " ++ found

def attr (aname : String) : Problem := "Expected attribute: " ++ aname

def attrText (aname found : String) : Problem :=
  "Expected attribute value for " ++ aname ++ " to be text but was " ++ found

def noChildren (numMissed : Nat) : Problem :=
  "Expected no contents but found " ++ toString numMissed ++ " children"

def unexpectedElem (ename : String) : Problem := "Unexpected element: " ++ ename

def noMatch : Problem := "Could not find matching choice"

end expected

/-- allGood: a successful result with no problems. The source has a default
argument of an empty context; calls of allGood with no argument are
modelled by allGoodNil below. -/
def allGood (ctx : Ctx) : VRes := ⟨true, [], ctx⟩

/-- allGood() with its default argument: the remaining context is emptied. -/
def allGoodNil : VRes := ⟨true, [], ⟨[], []⟩⟩

/-- invalid: a failed result carrying a single problem. -/
def invalid (ctx : Ctx) (p : Problem) : VRes := ⟨false, [p], ctx⟩

/-- The context of an element node: its children and attributes. -/
def elemCtx (el : XastNode) : Ctx :=
  match el with
  | .element _ attrs cs => ⟨cs, attrs⟩
  | _ => ⟨[], []⟩

/-- concat2: combine consecutive results (AND the ok flags, append the
problems, keep the second context). -/
def concat2 (r1 r2 : VRes) : VRes :=
  ⟨r1.ok && r2.ok, r1.problems ++ r2.problems, r2.ctx⟩

/-- addProblems: push problems onto the annotation entry of a node. -/
def addProblems (log : Log) (target : XastNode) (ps : List Problem) : Log :=
  log ++ ps.map (fun p => (target, p))

/-- unexpected: messages for context left unaccounted for - one per
remaining attribute key, then one per remaining child (elements and text
nodes only; other node types produce the empty string, which the source
filters out). -/
def unexpected (ctx : Ctx) : List Problem :=
  ctx.attrs.map (fun kv => "Unexpected attribute: " ++ kv.1) ++
    ctx.children.filterMap (fun ch =>
      match ch with
      | .element n _ _ => some (expected.unexpectedElem n)
      | .text _ => some expected.noText
      | .other _ => none)

/-- endValidationOnNode: annotate a node with a result, with both the
problems of the result and the unexpected leftovers of its context. -/
def endValidationOnNode (el : XastNode) (r : VRes) (log : Log) : Log :=
  addProblems (addProblems log el r.problems) el (unexpected r.ctx)

/-- fallback: run the options in order on the current log (side effects of
failed options persist, as in the source); the first ok result wins, and
when none is ok the last result is returned. An empty option list throws. -/
def fallback : List (Log → VOut) → Log → VOut
  | [], _ => .error (.thrown "Fallback should have at least one case")
  | [o], log => o log
  | o :: o2 :: rest, log =>
    match o log with
    | .error e => .error e
    | .ok (r, l) => if r.ok then .ok (r, l) else fallback (o2 :: rest) l

/-- chain of two steps (every call site of the variadic source chain passes
exactly two steps): run both unconditionally, the second on the context
the first left behind, and combine with concat2. -/
def chain2 (ctx : Ctx) (s1 s2 : Ctx → Log → VOut) (log : Log) : VOut := do
  let (r1, l1) ← s1 ctx log
  let (r2, l2) ← s2 r1.ctx l1
  pure (concat2 r1 r2, l2)

/-- chainIfOk of two steps (every call site passes exactly two steps):
like chain2 but stops early when the first step fails. -/
def chainIfOk2 (ctx : Ctx) (s1 s2 : Ctx → Log → VOut) (log : Log) : VOut := do
  let (r1, l1) ← s1 ctx log
  if r1.ok then do
    let (r2, l2) ← s2 r1.ctx l1
    pure (concat2 r1 r2, l2)
  else pure (r1, l1)

/-- getRef: the children of a define, or the thrown unknown-definition
error. -/
def getRef (defs : Defs) (n : String) : Except VErr (List RNode) :=
  match (defs.find? (fun kv => kv.1 = n)).map (·.2) with
  | none => .error (.thrown ("Referencing unknown definition: " ++ n))
  | some cs => .ok cs

/-- getRefSingle: the single child of a define. A define with no children
returns undefined in the source, which the caller then crashes on; the
embedding raises the TypeError at this point. -/
def getRefSingle (defs : Defs) (n : String) : Except VErr RNode :=
  match (defs.find? (fun kv => kv.1 = n)).map (·.2) with
  | none => .error (.thrown ("Referencing unknown definition: " ++ n))
  | some cs =>
    if cs.length > 1 then
      .error (.thrown "Unsure how to apply definition with multiple patterns")
    else
      match cs with
      | [] => .error (.thrown "TypeError: content is undefined")
      | c :: _ => .ok c

/-- expectAttrContent: patterns acceptable as attribute content. -/
def expectAttrContent (content : RNode) : Except VErr RNode :=
  match content.kind with
  | .text | .value | .data | .choice | .ref => .ok content
  | k => .error (.thrown ("Cannot use in attribute context: " ++ k.tagName))

/-- validateAttribute: validate an attribute value against a pattern. The
spec argument is Option RNode because the call site passes
spec.children[0], which may be undefined (reading its type then throws).
Attribute values are modelled as strings (the xast type also allows null
and undefined; the non-string branch of the source is then dead and the
text case always succeeds). -/
def validateAttribute (defs : Defs) : Nat → String → String → Option RNode →
    Except VErr VRes
  | 0, _, _, _ => .error .outOfFuel
  | _ + 1, _, _, none =>
    .error (.thrown "TypeError: cannot read the type of undefined")
  | fuel + 1, attrName, attrValue, some spec =>
    match spec.kind with
    | .ref => do
      let c ← getRefSingle defs spec.sval
      let c2 ← expectAttrContent c
      validateAttribute defs fuel attrName attrValue (some c2)
    | .text => .ok allGoodNil
    | k => .error (.thrown ("Unhandled validateAttribute: " ++ k.tagName))

/-- validateDetails: the core recursive matcher, with explicit fuel (the
source can fail to terminate, see claim C9) and an explicit annotation
log. Faithful to the switch in src/rngast-validate.ts; kinds without a
case (interleave, value, data, notAllowed, ...) hit the default branch and
throw. -/
def validateDetails (defs : Defs) : Nat → Ctx → List RNode → Log → VOut
  | 0, _, _, _ => .error .outOfFuel
  | fuel + 1, ctx, specs, log =>
    match specs with
    | [] => .ok (allGood ctx, log)
    | spec :: restSpecs =>
      match spec.kind with
      | .empty =>
        match ctx.children with
        | [] => .ok (allGoodNil, log)
        | _ => .ok (invalid ctx (expected.noChildren ctx.children.length), log)
      | .text =>
        match ctx.children with
        | [] => do
          let (r2, l2) ← validateDetails defs fuel ctx restSpecs log
          pure (concat2 (invalid ctx (expected.text "nothing")) r2, l2)
        | ch :: restChildren =>
          match ch with
          | .text _ =>
            validateDetails defs fuel ⟨restChildren, ctx.attrs⟩ restSpecs log
          | _ => do
            let (r2, l2) ← validateDetails defs fuel ctx restSpecs log
            pure (concat2 (invalid ctx (expected.text ch.typeName)) r2, l2)
      | .elementNamed =>
        match ctx.children with
        | [] => do
          let (r2, l2) ← validateDetails defs fuel ctx restSpecs log
          pure (concat2 (invalid ctx (expected.elem spec.sval "nothing")) r2, l2)
        | ch :: restChildren =>
          match ch with
          | .element cname cattrs cchildren =>
            if cname = spec.sval then do
              let (rin, l1) ←
                validateDetails defs fuel ⟨cchildren, cattrs⟩ spec.children log
              let l2 := endValidationOnNode ch rin l1
              validateDetails defs fuel ⟨restChildren, ctx.attrs⟩ restSpecs l2
            else do
              let (r2, l2) ← validateDetails defs fuel ctx restSpecs log
              pure (concat2 (invalid ctx (expected.elem spec.sval cname)) r2, l2)
          | _ => do
            let (r2, l2) ← validateDetails defs fuel ctx restSpecs log
            pure
              (concat2 (invalid ctx (expected.elem spec.sval ch.typeName)) r2, l2)
      | .attributeNamed =>
        match attrsLookup ctx.attrs spec.sval with
        | some v => do
          let r1 ← validateAttribute defs fuel spec.sval v spec.children.head?
          let (r2, l2) ←
            validateDetails defs fuel
              ⟨ctx.children, attrsRemove ctx.attrs spec.sval⟩ restSpecs log
          pure (concat2 r1 r2, l2)
        | none => do
          let (r2, l2) ← validateDetails defs fuel ctx restSpecs log
          pure (concat2 (invalid ctx (expected.attr spec.sval)) r2, l2)
      | .ref => do
        let cs ← getRef defs spec.sval
        validateDetails defs fuel ctx (cs ++ restSpecs) log
      | .optional =>
        fallback
          [fun l =>
            chain2 ctx (fun c l2 => validateDetails defs fuel c spec.children l2)
              (fun c l2 => validateDetails defs fuel c restSpecs l2) l,
           fun l => validateDetails defs fuel ctx restSpecs l] log
      | .choice =>
        fallback
          (spec.children.map (fun ch => fun (l : Log) =>
            chain2 ctx (fun c l2 => validateDetails defs fuel c [ch] l2)
              (fun c l2 => validateDetails defs fuel c restSpecs l2) l) ++
            [fun (l : Log) =>
              (.ok (invalid ctx expected.noMatch, l) : VOut)]) log
      | .zeroOrMore =>
        fallback
          [fun l =>
            chainIfOk2 ctx
              (fun c l2 => validateDetails defs fuel c spec.children l2)
              (fun c l2 => validateDetails defs fuel c specs l2) l,
           fun l => validateDetails defs fuel ctx restSpecs l] log
      | .oneOrMore =>
        chain2 ctx (fun c l2 => validateDetails defs fuel c spec.children l2)
          (fun c l2 =>
            fallback
              [fun l3 => validateDetails defs fuel c restSpecs l3,
               fun l3 => validateDetails defs fuel c specs l3] l2) log
      | .group =>
        validateDetails defs fuel ctx (spec.children ++ restSpecs) log
      | k => .error (.thrown ("Unhandled validateDetails: " ++ k.tagName))

/-- validateNode: validate a single target node against a single pattern;
returns the plausibility flag together with the final annotation log
(the source annotates target in place via endValidationOnNode). -/
def validateNode (defs : Defs) (fuel : Nat) (target : XastNode)
    (spec : RNode) : Except VErr (Bool × Log) := do
  let (r, log) ← validateDetails defs fuel ⟨[target], []⟩ [spec] []
  pure (r.ok, endValidationOnNode target r log)

/-- Termination of the matcher on a given input: some fuel bound makes it
finish (return or throw, rather than run out of fuel). -/
def ValidatorTerminatesOn (defs : Defs) (ctx : Ctx) (specs : List RNode) :
    Prop :=
  ∃ fuel, validateDetails defs fuel ctx specs [] ≠ .error .outOfFuel

/-!
The simplifier (second half of src/rngast-validate.ts). The passes use
unist-util-visit, whose semantics the embedding reproduces:

  - visit is a preorder walk; the visitor runs on a node before its
    children, and the children list is re-read live after the visitor runs.
  - A visitor that replaces the node (splicing a replacement into the
    parent's children array) does not stop the walk from descending into
    the ORIGINAL node's children array. A replacement built from the spread
    of the original children therefore shares the child objects but not the
    array: in-place changes to those child objects stay visible in the
    replacement, while splice replacements of the children themselves go
    into the detached original array and are lost.

Each pass is modelled by two mutually recursive functions:
  passSlot n = what the parent's array slot finally contains for node n
    (the visitor replacement, if any, rebuilt with the final object states
    of the captured children);
  passObj n = the final state of the node object n itself (used for
    children captured by a replacement: their own replacement is lost,
    only in-place changes and their subtrees survive).
-/

mutual

/-- Pass 4.8 moveNameAttributeToChild, slot view: elementNamed(N, P*) is
replaced by element(name(N), P*) via the builder (which appends an empty
child when there are no patterns), and attributeNamed(N, C*) by
attribute(name(N), C) via the builder (one content child, defaulting to
text; extra children are dropped by the builder arity). Children captured
by the replacement are kept as objects (m1obj). -/
def m1slot : RNode → RNode
  | .mk .elementNamed n _ [] =>
    .mk .element "" none [.mk .name n none [], rb.empty]
  | .mk .elementNamed n _ (c :: cs) =>
    .mk .element "" none (.mk .name n none [] :: m1obj c :: m1objList cs)
  | .mk .attributeNamed n _ [] =>
    .mk .attr "" none [.mk .name n none [], rb.text]
  | .mk .attributeNamed n _ (c :: _) =>
    .mk .attr "" none [.mk .name n none [], m1obj c]
  | .mk k s comb cs => .mk k s comb (m1slotList cs)

/-- Pass 4.8, object view: the node itself is not rewritten (a replacement
would go into a detached array); only its children array evolves. -/
def m1obj : RNode → RNode
  | .mk k s comb cs => .mk k s comb (m1slotList cs)

/-- Pass 4.8 mapped over a live children array. -/
def m1slotList : List RNode → List RNode
  | [] => []
  | c :: cs => m1slot c :: m1slotList cs

/-- Pass 4.8 mapped over children captured by a replacement. -/
def m1objList : List RNode → List RNode
  | [] => []
  | c :: cs => m1obj c :: m1objList cs

end

/-- Pass 4.8: lift the name attribute of elementNamed / attributeNamed into
a name child. The tree root is never replaced, so the pass is the object
view of the root. -/
def moveNameAttributeToChild (t : RNode) : RNode := m1obj t

/-- The left reduction used by controlChildren for choice / group /
interleave nodes with more than two children. -/
def c2fold (k : NodeKind) : RNode → List RNode → RNode
  | acc, [] => acc
  | acc, x :: xs => c2fold k (.mk k "" none [acc, x]) xs

/-- Start the left reduction from a nonempty already-processed list (the
empty case is unreachable: the reduce is only applied to three or more
children). -/
def c2foldFrom (k : NodeKind) : List RNode → RNode
  | x :: xs => c2fold k x xs
  | [] => .mk k "" none []

mutual

/-- Pass 4.12 controlChildren, slot view. choice / group / interleave with
one child are spliced away (the child object survives; the walk then
continues on the detached original, so a replacement of the child itself
is lost - c2obj); with more than two children they are replaced by the
left reduction into fresh binary nodes, which are never visited, over the
captured child objects (m2foldList). The visitor of every other node kind
acts in place (or not at all), so those cases coincide with c2obj and are
spelled out identically here. -/
def c2slot : RNode → RNode
  | .mk .choice _ _ [c] => c2obj c
  | .mk .group _ _ [c] => c2obj c
  | .mk .interleave _ _ [c] => c2obj c
  | .mk .choice _ _ (c1 :: c2 :: c3 :: cs) =>
    c2foldFrom .choice (m2foldList (c1 :: c2 :: c3 :: cs))
  | .mk .group _ _ (c1 :: c2 :: c3 :: cs) =>
    c2foldFrom .group (m2foldList (c1 :: c2 :: c3 :: cs))
  | .mk .interleave _ _ (c1 :: c2 :: c3 :: cs) =>
    c2foldFrom .interleave (m2foldList (c1 :: c2 :: c3 :: cs))
  | .mk .define n comb [c1, c2] =>
    .mk .define n comb [.mk .group "" none [c2slot c1, c2slot c2]]
  | .mk .define n comb (c1 :: c2 :: c3 :: cs) =>
    .mk .define n comb [c2foldFrom .group (m2foldList (c1 :: c2 :: c3 :: cs))]
  | .mk .oneOrMore s comb [c1, c2] =>
    .mk .oneOrMore s comb [.mk .group "" none [c2slot c1, c2slot c2]]
  | .mk .oneOrMore s comb (c1 :: c2 :: c3 :: cs) =>
    .mk .oneOrMore s comb [c2foldFrom .group (m2foldList (c1 :: c2 :: c3 :: cs))]
  | .mk .zeroOrMore s comb [c1, c2] =>
    .mk .zeroOrMore s comb [.mk .group "" none [c2slot c1, c2slot c2]]
  | .mk .zeroOrMore s comb (c1 :: c2 :: c3 :: cs) =>
    .mk .zeroOrMore s comb [c2foldFrom .group (m2foldList (c1 :: c2 :: c3 :: cs))]
  | .mk .optional s comb [c1, c2] =>
    .mk .optional s comb [.mk .group "" none [c2slot c1, c2slot c2]]
  | .mk .optional s comb (c1 :: c2 :: c3 :: cs) =>
    .mk .optional s comb [c2foldFrom .group (m2foldList (c1 :: c2 :: c3 :: cs))]
  | .mk .mixed s comb [c1, c2] =>
    .mk .mixed s comb [.mk .group "" none [c2slot c1, c2slot c2]]
  | .mk .mixed s comb (c1 :: c2 :: c3 :: cs) =>
    .mk .mixed s comb [c2foldFrom .group (m2foldList (c1 :: c2 :: c3 :: cs))]
  | .mk .element s comb [nc, r1, r2] =>
    .mk .element s comb [c2slot nc, .mk .group "" none [c2slot r1, c2slot r2]]
  | .mk .element s comb (nc :: r1 :: r2 :: r3 :: rest) =>
    .mk .element s comb
      [c2slot nc, c2foldFrom .group (m2foldList (r1 :: r2 :: r3 :: rest))]
  | .mk .attr s comb [c] => .mk .attr s comb [c2slot c, rb.text]
  | .mk k s comb cs => .mk k s comb (c2slotList cs)

/-- Pass 4.12, object view: in-place child-array mutations (wrapping many
children in a group, appending text to an attribute) happen before the
walk descends, so the walk continues on the new, live array; a fresh group
wrapper with two children is kept (and its children walked live), one with
more is replaced by the left reduction over the captured objects. The
slot-replacing kinds (choice / group / interleave splices) lose their
replacement in object position, so they take the generic map-the-slots
case here. -/
def c2obj : RNode → RNode
  | .mk .define n comb [c1, c2] =>
    .mk .define n comb [.mk .group "" none [c2slot c1, c2slot c2]]
  | .mk .define n comb (c1 :: c2 :: c3 :: cs) =>
    .mk .define n comb [c2foldFrom .group (m2foldList (c1 :: c2 :: c3 :: cs))]
  | .mk .oneOrMore s comb [c1, c2] =>
    .mk .oneOrMore s comb [.mk .group "" none [c2slot c1, c2slot c2]]
  | .mk .oneOrMore s comb (c1 :: c2 :: c3 :: cs) =>
    .mk .oneOrMore s comb [c2foldFrom .group (m2foldList (c1 :: c2 :: c3 :: cs))]
  | .mk .zeroOrMore s comb [c1, c2] =>
    .mk .zeroOrMore s comb [.mk .group "" none [c2slot c1, c2slot c2]]
  | .mk .zeroOrMore s comb (c1 :: c2 :: c3 :: cs) =>
    .mk .zeroOrMore s comb [c2foldFrom .group (m2foldList (c1 :: c2 :: c3 :: cs))]
  | .mk .optional s comb [c1, c2] =>
    .mk .optional s comb [.mk .group "" none [c2slot c1, c2slot c2]]
  | .mk .optional s comb (c1 :: c2 :: c3 :: cs) =>
    .mk .optional s comb [c2foldFrom .group (m2foldList (c1 :: c2 :: c3 :: cs))]
  | .mk .mixed s comb [c1, c2] =>
    .mk .mixed s comb [.mk .group "" none [c2slot c1, c2slot c2]]
  | .mk .mixed s comb (c1 :: c2 :: c3 :: cs) =>
    .mk .mixed s comb [c2foldFrom .group (m2foldList (c1 :: c2 :: c3 :: cs))]
  | .mk .element s comb [nc, r1, r2] =>
    .mk .element s comb [c2slot nc, .mk .group "" none [c2slot r1, c2slot r2]]
  | .mk .element s comb (nc :: r1 :: r2 :: r3 :: rest) =>
    .mk .element s comb
      [c2slot nc, c2foldFrom .group (m2foldList (r1 :: r2 :: r3 :: rest))]
  | .mk .attr s comb [c] => .mk .attr s comb [c2slot c, rb.text]
  | .mk k s comb cs => .mk k s comb (c2slotList cs)

/-- Pass 4.12 mapped over a live children array. -/
def c2slotList : List RNode → List RNode
  | [] => []
  | c :: cs => c2slot c :: c2slotList cs

/-- Pass 4.12 mapped over children captured by a reduce replacement. -/
def m2foldList : List RNode → List RNode
  | [] => []
  | c :: cs => c2obj c :: m2foldList cs

end

/-- Pass 4.12: arity normalization. -/
def controlChildren (t : RNode) : RNode := c2obj t

mutual

/-- Passes 4.13-4.15 replaceMixedOptionalAndZeroOrMore, slot view:
mixed(C) becomes interleave(C, text), optional(C) becomes choice(C, empty),
zeroOrMore(C) becomes choice(oneOrMore(C), empty). Only children[0] is
captured by the replacement; a node of these kinds with no children would
make the source build a node containing the JavaScript value undefined
(and a later pass would crash reading its type), modelled as an immediate
TypeError. -/
def m3slot : RNode → Except String RNode
  | .mk .mixed _ _ [] => .error "TypeError: undefined child of mixed"
  | .mk .mixed _ _ (c :: _) => do
    pure (.mk .interleave "" none [← m3obj c, rb.text])
  | .mk .optional _ _ [] => .error "TypeError: undefined child of optional"
  | .mk .optional _ _ (c :: _) => do
    pure (.mk .choice "" none [← m3obj c, rb.empty])
  | .mk .zeroOrMore _ _ [] => .error "TypeError: undefined child of zeroOrMore"
  | .mk .zeroOrMore _ _ (c :: _) => do
    pure (.mk .choice "" none [.mk .oneOrMore "" none [← m3obj c], rb.empty])
  | .mk k s comb cs => do pure (.mk k s comb (← m3slotList cs))

/-- Passes 4.13-4.15, object view. -/
def m3obj : RNode → Except String RNode
  | .mk k s comb cs => do pure (.mk k s comb (← m3slotList cs))

/-- Passes 4.13-4.15 mapped over a live children array. -/
def m3slotList : List RNode → Except String (List RNode)
  | [] => .ok []
  | c :: cs => do pure ((← m3slot c) :: (← m3slotList cs))

end

/-- Passes 4.13-4.15: remove mixed, optional and zeroOrMore. -/
def replaceMixedOptionalAndZeroOrMore (t : RNode) : Except String RNode :=
  m3obj t

/-- The compare helper for sorting start / define nodes on their combine
attribute: undefined sorts first, otherwise the string order of the tags
(choice before interleave). The comparator is inconsistent when both sides
are undefined (it returns -1 either way); the stable left-to-right
insertion sort below reproduces the engine sort for the group sizes
exercised here. -/
def combineCompare (a b : Option CombineMethod) : Int :=
  match a, b with
  | none, _ => -1
  | some _, none => 1
  | some .choice, some .choice => 0
  | some .choice, some .interleave => -1
  | some .interleave, some .choice => 1
  | some .interleave, some .interleave => 0

/-- Insert an item after every already-placed item that compares ≤ 0
against it (binary insertion as the engine performs on small arrays). -/
def sortInsert : List RNode → RNode → List RNode
  | [], x => [x]
  | y :: ys, x =>
    if combineCompare y.combine x.combine ≤ 0 then y :: sortInsert ys x
    else x :: y :: ys

/-- items.sort(comparator on combine). -/
def sortByCombine (items : List RNode) : List RNode :=
  items.foldl sortInsert []

/-- One reduce step of the combine helper: inherit an absent combine from
the other side, reject two absent or two different values, and fold the
two single patterns into a choice or interleave wrapped by the builder.
The different-values message is a single-quoted (not template) literal in
the source, so it is raised verbatim with the ${errorName} placeholder
unexpanded. A side with no children would put the JavaScript value
undefined into the built node; modelled as an immediate TypeError. -/
def combineStep (builder : RNode → RNode) (errorName : String)
    (p1 p2 : RNode) : Except String RNode :=
  match p1.combine, p2.combine with
  | none, none =>
    .error ("Cannot have multiple " ++ errorName ++
      " without specifying combine")
  | c1o, c2o =>
    let c1 := c1o.getD (c2o.getD .choice)
    let c2 := c2o.getD c1
    if c1 ≠ c2 then
      .error "Cannot have multiple ${errorName} with different combine values"
    else
      match p1.children.head?, p2.children.head? with
      | some a, some b =>
        let inner :=
          if c1 = .choice then .mk .choice "" none [a, b]
          else .mk .interleave "" none [a, b]
        .ok ((builder inner).setCombine (some c1))
      | _, _ => .error "TypeError: undefined child in combine"

/-- The combine helper: sort the items on their combine attribute and fold
them left with combineStep. An empty list corresponds to the reduce of an
empty array, guarded by the start-specific error. -/
def combine (items : List RNode) (builder : RNode → RNode)
    (errorName : String) : Except String RNode :=
  match sortByCombine items with
  | [] => .error "Cannot have a grammar without a start"
  | first :: rest => rest.foldlM (combineStep builder errorName) first

/-- Group the define children of a grammar by name, preserving the first
occurrence order of names and the in-group order (the Map of the source). -/
def addToGroup : List (String × List RNode) → String → RNode →
    List (String × List RNode)
  | [], n, c => [(n, [c])]
  | (k, xs) :: rest, n, c =>
    if k = n then (k, xs ++ [c]) :: rest
    else (k, xs) :: addToGroup rest n c

/-- The defines of a grammar child list, grouped by name. -/
def definesByNameGroups (cs : List RNode) : List (String × List RNode) :=
  cs.foldl
    (fun acc c => if c.kind = .define then addToGroup acc c.sval c else acc) []

/-- The grammar visitor of pass 4.17: collect starts and defines, fold each
group with the combine helper, and replace the children with one start
followed by one define per name. -/
def ecGrammarChildren (cs : List RNode) : Except String (List RNode) := do
  let starts := cs.filter (fun c => c.kind = .start)
  if starts.isEmpty then .error "A grammar must have a start element"
  else do
    let collectedStarts ←
      combine starts (fun p => .mk .start "" none [p]) "start elements"
    let collectedDefines ←
      (definesByNameGroups cs).mapM (fun kv =>
        combine kv.2 (fun p => .mk .define kv.1 none [p])
          ("defines for name " ++ kv.1))
    pure (collectedStarts :: collectedDefines)

/-- Pass 4.17 traversal: preorder over grammar nodes; the rebuilt children
are live, so the walk then descends into them (nested grammars inside the
folded patterns are processed afterwards). Fuel bounds the recursion into
freshly built wrappers. -/
def ecNode : Nat → RNode → Except String RNode
  | 0, _ => .error "model out of fuel"
  | fuel + 1, node =>
    match node with
    | .mk .grammar s comb cs => do
      let cs2 ← ecGrammarChildren cs
      let cs3 ← cs2.mapM (ecNode fuel)
      pure (.mk .grammar s comb cs3)
    | .mk k s comb cs => do
      let cs2 ← cs.mapM (ecNode fuel)
      pure (.mk k s comb cs2)

/-- Pass 4.17: eliminate the combine attribute. -/
def eliminateCombineAttribute (fuel : Nat) (t : RNode) : Except String RNode :=
  ecNode fuel t

/-- ensureTopLevelGrammar: require a single top-level child and wrap it as
grammar(start(child)) when it is not already a grammar. -/
def ensureTopLevelGrammar (t : RNode) : Except String RNode :=
  match t with
  | .mk .root s comb [c] =>
    if c.kind = .grammar then .ok (.mk .root s comb [c])
    else .ok (.mk .root s comb [.mk .grammar "" none [.mk .start "" none [c]]])
  | _ => .error "Must have exactly one top level element"

/-- The top grammar of a tree that passed ensureTopLevelGrammar. -/
def topGrammar (t : RNode) : RNode :=
  match t.children.head? with
  | some g => g
  | none => t

mutual

/-- The paths (child-index lists) of all grammar nodes, in the preorder of
selectAll. Paths model the object identity of grammar nodes that the
source tracks through references. -/
def grammarPathsNode : RNode → List Nat → List (List Nat)
  | .mk k _ _ cs, path =>
    (if k = .grammar then [path] else []) ++ grammarPathsList cs path 0

/-- Paths of grammar nodes inside a children list. -/
def grammarPathsList : List RNode → List Nat → Nat → List (List Nat)
  | [], _, _ => []
  | c :: cs, path, i =>
    grammarPathsNode c (path ++ [i]) ++ grammarPathsList cs path (i + 1)

end

/-- The node at a path, if any. -/
def getAt? : RNode → List Nat → Option RNode
  | n, [] => some n
  | .mk _ _ _ cs, i :: rest =>
    match cs.get? i with
    | some c => getAt? c rest
    | none => none

/-- Replace the element at an index of a list (in-bounds only). -/
def listSetAt : List RNode → Nat → RNode → List RNode
  | [], _, _ => []
  | _ :: cs, 0, x => x :: cs
  | c :: cs, i + 1, x => c :: listSetAt cs i x

/-- Apply a function to the node at a path (identity on a missing path). -/
def modifyAt : RNode → List Nat → (RNode → RNode) → RNode
  | n, [], f => f n
  | .mk k s comb cs, i :: rest, f =>
    match cs.get? i with
    | some c => .mk k s comb (listSetAt cs i (modifyAt c rest f))
    | none => .mk k s comb cs

/-- determineNewName: append __1, __2, ... until the name is unused. Some
candidate among the first names.length + 1 is always unused, which bounds
the loop. -/
def determineNewNameGo : Nat → Nat → String → List String → String
  | 0, k, base, _ => base ++ "__" ++ toString k
  | fuel + 1, k, base, names =>
    let cand := base ++ "__" ++ toString k
    if names.contains cand then determineNewNameGo fuel (k + 1) base names
    else cand

/-- determineNewName of the source. -/
def determineNewName (base : String) (names : List String) : String :=
  determineNewNameGo (names.length + 1) 1 base names

/-- The rename-substitution table of pass 4.18: old name to the list of
(owning grammar path, new name) entries. -/
abbrev Subs := List (String × List (List Nat × String))

/-- Record a substitution entry for an old name. -/
def subsAdd : Subs → String → List Nat × String → Subs
  | [], n, e => [(n, [e])]
  | (k, es) :: rest, n, e =>
    if k = n then (k, es ++ [e]) :: rest else (k, es) :: subsAdd rest n e

/-- State threaded by the rename loop of pass 4.18: the tree, the global
name set, and the recorded substitutions. A renamed define does not add
its new name to the name set, exactly as in the source. -/
structure RenameState where
  tree : RNode
  names : List String
  subs : Subs

/-- Rename handling for one child (by index) of the grammar at a path. -/
def renameGrammarChild (gpath : List Nat) (st : RenameState) (idx : Nat) :
    RenameState :=
  match getAt? st.tree (gpath ++ [idx]) with
  | some (.mk .define n _ _) =>
    if st.names.contains n then
      let newName := determineNewName n st.names
      { tree :=
          modifyAt st.tree (gpath ++ [idx]) (fun nd =>
            match nd with
            | .mk k _ c cc => .mk k newName c cc),
        names := st.names,
        subs := subsAdd st.subs n (gpath, newName) }
    else { st with names := st.names ++ [n] }
  | _ => st

/-- Rename handling for all children of the grammar at a path. -/
def renameGrammar (st : RenameState) (gpath : List Nat) : RenameState :=
  let childCount := ((getAt? st.tree gpath).map (·.children.length)).getD 0
  (List.range childCount).foldl (renameGrammarChild gpath) st

/-- findClosestGrammar: the nearest enclosing grammar (innermost first in
the list), skipping one level for a parentRef. -/
def findClosestGrammar (enclosing : List (List Nat)) (isParentRef : Bool) :
    Except String (List Nat) :=
  match enclosing, isParentRef with
  | g :: _, false => .ok g
  | _ :: g :: _, true => .ok g
  | _, _ => .error "Each ref or parentRef must be within a grammar"

/-- Apply the recorded substitution to one ref / parentRef node: resolve
the nearest enclosing grammar, find the entry recorded for that grammar,
rename, and turn parentRef into ref. -/
def refFixLeaf (subs : Subs) (enclosing : List (List Nat))
    (isParentRef : Bool) (n : String) (comb : Option CombineMethod)
    (cs : List RNode) : Except String RNode :=
  match (subs.find? (fun kv => kv.1 = n)).map (·.2) with
  | none => .ok (.mk (if isParentRef then .parentRef else .ref) n comb cs)
  | some entries => do
    let g ← findClosestGrammar enclosing isParentRef
    match (entries.find? (fun e => e.1 = g)).map (·.2) with
    | some newName => .ok (.mk .ref newName comb cs)
    | none => .error ("Should have found a substitution for " ++ n)

mutual

/-- The visitParents walk of pass 4.18 that rewrites ref / parentRef nodes
whose names were renamed; enclosing carries the paths of the enclosing
grammar nodes, innermost first. -/
def refFixNode (subs : Subs) : RNode → List (List Nat) → List Nat →
    Except String RNode
  | .mk .ref n comb cs, enclosing, _ => refFixLeaf subs enclosing false n comb cs
  | .mk .parentRef n comb cs, enclosing, _ =>
    refFixLeaf subs enclosing true n comb cs
  | .mk k s comb cs, enclosing, path => do
    let enclosing2 := if k = .grammar then path :: enclosing else enclosing
    let cs2 ← refFixList subs cs enclosing2 path 0
    pure (.mk k s comb cs2)

/-- refFixNode mapped over a children list with index tracking. -/
def refFixList (subs : Subs) : List RNode → List (List Nat) → List Nat →
    Nat → Except String (List RNode)
  | [], _, _, _ => .ok []
  | c :: cs, enclosing, path, i => do
    let c2 ← refFixNode subs c enclosing (path ++ [i])
    let cs2 ← refFixList subs cs enclosing path (i + 1)
    pure (c2 :: cs2)

end

/-- The first nested (non-top) grammar in preorder, if any. The top grammar
sits at path [0] under the root. -/
def firstNestedGrammarPath (t : RNode) : Option (List Nat) :=
  (grammarPathsNode t []).find? (fun p => p ≠ [0])

/-- Supplant one nested grammar: relocate its define children to the top
grammar (appended at the end) and replace the grammar node by the payload
of its first child (its start, after pass 4.17). -/
def supplantOne (t : RNode) (p : List Nat) : Except String RNode :=
  match getAt? t p with
  | some g =>
    let defs := g.children.filter (fun c => c.kind = .define)
    let t1 := modifyAt t [0] (fun top => top.setChildren (top.children ++ defs))
    match g.children.head? with
    | none => .error "TypeError: cannot read children of undefined"
    | some st =>
      match st.children.head? with
      | none => .error "TypeError: undefined start payload"
      | some payload => .ok (modifyAt t1 p (fun _ => payload))
  | none => .error "missing grammar path"

/-- Supplant nested grammars until none remains (the live visit of the
source discovers relocated defines at the end of the top grammar children
and nested grammars inside replaced payloads; the loop reproduces that). -/
def supplantLoop : Nat → RNode → Except String RNode
  | 0, _ => .error "model out of fuel"
  | fuel + 1, t =>
    match firstNestedGrammarPath t with
    | none => .ok t
    | some p => do supplantLoop fuel (← supplantOne t p)

/-- Pass 4.18 ensureOnlyOneGrammarElement: wrap the top level in a grammar
when needed, rename duplicate define names (recording substitutions keyed
by the owning grammar), rewrite the refs and parentRefs accordingly, then
flatten nested grammars into the top one. -/
def ensureOnlyOneGrammarElement (fuel : Nat) (t : RNode) :
    Except String RNode := do
  let t1 ← ensureTopLevelGrammar t
  let gpaths := grammarPathsNode t1 []
  let st := gpaths.foldl renameGrammar ⟨t1, [], []⟩
  let t2 ← refFixNode st.subs st.tree [] []
  supplantLoop fuel t2

/-- getMapOfDefines: intended to build the define table of a grammar. The
source destructures with

  const [, _defines] = grammar.children as [R.Start, Array<R.Define>];

There is no rest element in the pattern, so at runtime _defines is the
single node grammar.children[1] (the first define), or undefined when the
grammar has only a start - not the array of defines the type cast claims.
The following for...of loop over _defines therefore always throws a
TypeError: neither a plain define object nor undefined is iterable. Every
call of this function throws. -/
def getMapOfDefines (g : RNode) : Except String (List (String × RNode)) :=
  match g.children.get? 1 with
  | none => .error "TypeError: undefined is not iterable"
  | some _ => .error "TypeError: _defines is not iterable"

/-- JavaScript Array.prototype.splice(start, 1) with no insertion: start is
clamped (negative counts from the end, a too-large start is the length). -/
def jsSpliceRemove1 (l : List RNode) (start : Int) : List RNode :=
  let s : Nat :=
    if start < 0 then (max ((l.length : Int) + start) 0).toNat
    else min start.toNat l.length
  l.take s ++ l.drop (s + 1)

/-- JavaScript Array.prototype.splice(start, 1, x): remove one element at
the clamped start position and insert x there. -/
def jsSpliceReplace1 (l : List RNode) (start : Int) (x : RNode) :
    List RNode :=
  let s : Nat :=
    if start < 0 then (max ((l.length : Int) + start) 0).toNat
    else min start.toNat l.length
  l.take s ++ [x] ++ l.drop (s + 1)

/-- State of the removeUnreachableDefines visit: the live top-grammar
children array, the reached names, and whether EXIT was returned. -/
structure RUState where
  gchildren : List RNode
  reached : List String
  stop : Bool

/-- The ref handler of the removeUnreachableDefines visit. Note the two
splices of the source: splice(oldIndex, 1) removes the moved define (with
oldIndex possibly -1 when the define was already displaced, which removes
the LAST element), and splice(newIndex, 1, define) REPLACES the node at
newIndex rather than inserting before it, deleting whatever define sat
there - contradicting the adjacent comment, which says the define is
placed after the already-visited ones. This code is unreachable in the
source because getMapOfDefines above throws first. -/
def ruVisitRef (defMap : List (String × RNode)) (st : RUState) (n : String) :
    RUState :=
  if st.reached.contains n then st
  else
    let reached2 := st.reached ++ [n]
    match (defMap.find? (fun kv => kv.1 = n)).map (·.2) with
    | none => { st with reached := reached2 }
    | some d =>
      let oldIndex : Int :=
        match st.gchildren.findIdx? (fun c => c = d) with
        | some i => (i : Int)
        | none => -1
      let cs1 := jsSpliceRemove1 st.gchildren oldIndex
      let cs2 := jsSpliceReplace1 cs1 (reached2.length : Int) d
      ⟨cs2, reached2, st.stop⟩

mutual

/-- DFS of the removeUnreachableDefines visitor over one subtree
(unreachable in the source, see getMapOfDefines). Unreached ref nodes
trigger the define move; an unreached define returns EXIT (the source also
computes children.slice(0, index) here but discards the result, so nothing
is actually removed). -/
def ruDFS (defMap : List (String × RNode)) : RNode → RUState → RUState
  | .mk .ref n _ _, st => if st.stop then st else ruVisitRef defMap st n
  | .mk .define n _ cs, st =>
    if st.stop then st
    else if st.reached.contains n then ruDFSList defMap cs st
    else { st with stop := true }
  | .mk _ _ _ cs, st => if st.stop then st else ruDFSList defMap cs st

/-- ruDFS over a children list. -/
def ruDFSList (defMap : List (String × RNode)) : List RNode → RUState →
    RUState
  | [], st => st
  | c :: cs, st => ruDFSList defMap cs (ruDFS defMap c st)

end

/-- The live loop over the top grammar children (the grammar-level walk of
the visit; the children array mutates under it through the ref moves). -/
def ruTop (defMap : List (String × RNode)) : Nat → Nat → RUState → RUState
  | 0, _, st => st
  | fuel + 1, idx, st =>
    if st.stop then st
    else
      match st.gchildren.get? idx with
      | none => st
      | some node => ruTop defMap fuel (idx + 1) (ruDFS defMap node st)

/-- removeUnreachableDefines. The define table is built by getMapOfDefines
before the visit starts, and that call always throws; the visit below is
therefore dead code in the source, modelled for completeness. -/
def removeUnreachableDefines (t : RNode) : Except String RNode := do
  let t1 ← ensureTopLevelGrammar t
  let defMap ← getMapOfDefines (topGrammar t1)
  let g := topGrammar t1
  let st := ruTop defMap (g.children.length + 1) 0 ⟨g.children, [], false⟩
  pure (modifyAt t1 [0] (fun top => top.setChildren st.gchildren))

/-- State of createDefinesForEachElement: the counter and the defines
appended to the top grammar (unreachable in the source, since the
reachability step before it throws). -/
structure CDState where
  count : Nat
  newDefs : List RNode

mutual

/-- The element-lifting visitor: an element whose parent is not a define is
replaced by ref(elem__N) and a define elem__N wrapping the element is
appended; the walk SKIPs the replaced element (its children are processed
later, when the walk reaches the appended define). -/
def cdNode (parentIsDefine : Bool) : RNode → CDState → (RNode × CDState)
  | .mk .element s comb cs, st =>
    if parentIsDefine then
      let (cs2, st2) := cdList false cs st
      (.mk .element s comb cs2, st2)
    else
      let newName := "elem__" ++ toString (st.count + 1)
      (.mk .ref newName none [],
       ⟨st.count + 1,
        st.newDefs ++ [.mk .define newName none [.mk .element s comb cs]]⟩)
  | .mk k s comb cs, st =>
    let (cs2, st2) := cdList (k = .define) cs st
    (.mk k s comb cs2, st2)

/-- cdNode over a children list. -/
def cdList (parentIsDefine : Bool) : List RNode → CDState →
    (List RNode × CDState)
  | [], st => ([], st)
  | c :: cs, st =>
    let (c2, st2) := cdNode parentIsDefine c st
    let (cs2, st3) := cdList parentIsDefine cs st2
    (c2 :: cs2, st3)

end

/-- Worklist over the appended defines (they are appended to the live top
grammar children, so the walk visits them after the original ones). -/
def cdLoop : Nat → List RNode → CDState → List RNode
  | 0, acc, _ => acc
  | fuel + 1, acc, st =>
    match st.newDefs with
    | [] => acc
    | d :: rest =>
      let (d2, st2) := cdNode false d ⟨st.count, rest⟩
      cdLoop fuel (acc ++ [d2]) st2

/-- createDefinesForEachElement (unreachable in the source). -/
def createDefinesForEachElement (fuel : Nat) (t : RNode) : RNode :=
  let top := topGrammar t
  let (cs2, st) := cdList false top.children ⟨0, []⟩
  let extra := cdLoop fuel [] st
  modifyAt t [0] (fun g => g.setChildren (cs2 ++ extra))

mutual

/-- The ref-substitution step of the canonical pass (unreachable in the
source): a ref whose define wraps a non-element is replaced by the define
child (the source splices the shared object, no copy); the walk does not
descend into the replacement. -/
def refSubstituteNode (defMap : List (String × RNode)) : RNode →
    Except String RNode
  | .mk .ref n comb cs =>
    (match (defMap.find? (fun kv => kv.1 = n)).map (·.2) with
     | none => .error "TypeError: cannot read children of undefined"
     | some d =>
       match d.children.head? with
       | none => .error "TypeError: undefined define child"
       | some c =>
         if c.kind = .element then .ok (.mk .ref n comb cs) else .ok c)
  | .mk k s comb cs => do
    pure (.mk k s comb (← refSubstituteList defMap cs))

/-- refSubstituteNode over a children list. -/
def refSubstituteList (defMap : List (String × RNode)) : List RNode →
    Except String (List RNode)
  | [] => .ok []
  | c :: cs => do
    pure ((← refSubstituteNode defMap c) :: (← refSubstituteList defMap cs))

end

/-- Pass 4.19 canonicalDefineAndElement: remove unreachable defines (which
always throws, see getMapOfDefines), lift elements into defines,
substitute refs of non-element defines, and prune non-element defines. -/
def canonicalDefineAndElement (fuel : Nat) (t : RNode) :
    Except String RNode := do
  let t1 ← removeUnreachableDefines t
  let t2 := createDefinesForEachElement fuel t1
  let t3 ← ensureTopLevelGrammar t2
  let defMap ← getMapOfDefines (topGrammar t3)
  let t4 ← refSubstituteNode defMap t3
  pure (modifyAt t4 [0] (fun top =>
    top.setChildren (top.children.filter (fun ch =>
      ¬ ch.kind = .define ||
        (match ch.children.head? with
         | some c => c.kind = .element
         | none => false)))))

/-- The visitor of pass 4.20 at one node (children already processed):
an attribute whose content is notAllowed becomes notAllowed; group /
interleave / oneOrMore with any notAllowed child become notAllowed; a
choice drops a notAllowed side. Index reads of missing children are the
TypeErrors of the source property accesses. -/
def lnRewrite (node : RNode) : Except String RNode :=
  match node with
  | .mk .attr _ _ cs =>
    (match cs.get? 1 with
     | none => .error "TypeError: cannot read type of undefined"
     | some c => if c.kind = .notAllowed then .ok rb.notAllowed else .ok node)
  | .mk .group _ _ cs =>
    if cs.any (fun c => c.kind = .notAllowed) then .ok rb.notAllowed
    else .ok node
  | .mk .interleave _ _ cs =>
    if cs.any (fun c => c.kind = .notAllowed) then .ok rb.notAllowed
    else .ok node
  | .mk .oneOrMore _ _ cs =>
    if cs.any (fun c => c.kind = .notAllowed) then .ok rb.notAllowed
    else .ok node
  | .mk .choice _ _ cs =>
    (match cs.get? 0 with
     | none => .error "TypeError: cannot read type of undefined"
     | some c0 =>
       if c0.kind = .notAllowed then
         match cs.get? 1 with
         | some c1 => .ok c1
         | none => .error "TypeError: undefined child spliced"
       else
         match cs.get? 1 with
         | none => .error "TypeError: cannot read type of undefined"
         | some c1 => if c1.kind = .notAllowed then .ok c0 else .ok node)
  | _ => .ok node

mutual

/-- Pass 4.20 post-order walk over a child slot: children first, then the
visitor on the node; replacements are seen by the parent, and their
children are not revisited (exactly the visitPostOrder contract). -/
def lnSlot : RNode → Except String RNode
  | .mk k s comb cs => do
    lnRewrite (.mk k s comb (← lnList cs))

/-- lnSlot over a children list. -/
def lnList : List RNode → Except String (List RNode)
  | [] => .ok []
  | c :: cs => do
    pure ((← lnSlot c) :: (← lnList cs))

end

/-- Pass 4.20 limitLocationsOfNotAllowed: the post-order rewrite (the root
itself is skipped: the visitor returns early without a parent), then the
re-run of removeUnreachableDefines, which always throws. -/
def limitLocationsOfNotAllowed (t : RNode) : Except String RNode := do
  match t with
  | .mk k s comb cs => do
    let cs2 ← lnList cs
    removeUnreachableDefines (.mk k s comb cs2)

/-- The visitor of pass 4.21 at one node: group / interleave drop an empty
side, a choice with an empty second child swaps its first two children,
oneOrMore(empty) collapses to empty. -/
def aeRewrite (node : RNode) : Except String RNode :=
  match node with
  | .mk .group _ _ cs =>
    (match cs.get? 0 with
     | none => .error "TypeError: cannot read type of undefined"
     | some c0 =>
       if c0.kind = .empty then
         match cs.get? 1 with
         | some c1 => .ok c1
         | none => .error "TypeError: undefined child spliced"
       else
         match cs.get? 1 with
         | none => .error "TypeError: cannot read type of undefined"
         | some c1 => if c1.kind = .empty then .ok c0 else .ok node)
  | .mk .interleave _ _ cs =>
    (match cs.get? 0 with
     | none => .error "TypeError: cannot read type of undefined"
     | some c0 =>
       if c0.kind = .empty then
         match cs.get? 1 with
         | some c1 => .ok c1
         | none => .error "TypeError: undefined child spliced"
       else
         match cs.get? 1 with
         | none => .error "TypeError: cannot read type of undefined"
         | some c1 => if c1.kind = .empty then .ok c0 else .ok node)
  | .mk .choice s comb cs =>
    (match cs with
     | c0 :: c1 :: rest =>
       if c1.kind = .empty then .ok (.mk .choice s comb (c1 :: c0 :: rest))
       else .ok node
     | _ => .error "TypeError: cannot read type of undefined")
  | .mk .oneOrMore _ _ cs =>
    (match cs.get? 0 with
     | none => .error "TypeError: cannot read type of undefined"
     | some c0 => if c0.kind = .empty then .ok rb.empty else .ok node)
  | _ => .ok node

mutual

/-- Pass 4.21 post-order walk over a child slot. -/
def aeSlot : RNode → Except String RNode
  | .mk k s comb cs => do
    aeRewrite (.mk k s comb (← aeList cs))

/-- aeSlot over a children list. -/
def aeList : List RNode → Except String (List RNode)
  | [] => .ok []
  | c :: cs => do
    pure ((← aeSlot c) :: (← aeList cs))

end

/-- Pass 4.21 avoidEmptyInGroupSpots (the root itself is skipped, as in
pass 4.20). -/
def avoidEmptyInGroupSpots (t : RNode) : Except String RNode := do
  match t with
  | .mk k s comb cs => do
    pure (.mk k s comb (← aeList cs))

/-!
The simple-form checker of src/simple-rngast.ts: a pure predicate over the
simplified tree.
-/

mutual

/-- isGrammar: nonempty children, a start first, defines after. -/
def isGrammarS : RNode → Bool
  | .mk .grammar _ _ (st :: rest) => isStartS st && isDefineListS rest
  | _ => false

/-- isStart: a single top child. -/
def isStartS : RNode → Bool
  | .mk .start _ _ [c] => isTopS c
  | _ => false

/-- isTop: notAllowed or a pattern. -/
def isTopS (c : RNode) : Bool :=
  c.kind = .notAllowed || isPatternS c

/-- isPattern: empty or a non-empty pattern. -/
def isPatternS (c : RNode) : Bool :=
  c.kind = .empty || isNonEmptyPatternS c
termination_by (sizeOf c, 3)

/-- isNonEmptyPattern: the restricted arities of the simple form. -/
def isNonEmptyPatternS : RNode → Bool
  | .mk .text _ _ _ => true
  | .mk .data _ _ _ => true
  | .mk .value _ _ _ => true
  | .mk .ref _ _ _ => true
  | .mk .attr _ _ [nc, p] => isNameClassS nc && isPatternS p
  | .mk .oneOrMore _ _ [c] => isNonEmptyPatternS c
  | .mk .choice _ _ [c0, c1] => isPatternS c0 && isNonEmptyPatternS c1
  | .mk .group _ _ [a, b] => isNonEmptyPatternS a && isNonEmptyPatternS b
  | .mk .interleave _ _ [a, b] => isNonEmptyPatternS a && isNonEmptyPatternS b
  | _ => false
termination_by x => (sizeOf x, 2)

/-- isNameClass: the source accepts any name class. -/
def isNameClassS (_ : RNode) : Bool := true

/-- isDefine: a single element child. -/
def isDefineS : RNode → Bool
  | .mk .define _ _ [el] => isElementS el
  | _ => false

/-- isElement: a name class and a top pattern. -/
def isElementS : RNode → Bool
  | .mk .element _ _ [nc, top] => isNameClassS nc && isTopS top
  | _ => false

/-- every define check over the grammar tail. -/
def isDefineListS : List RNode → Bool
  | [] => true
  | d :: ds => isDefineS d && isDefineListS ds
termination_by ds => (sizeOf ds, 0)

end

/-- isRoot: exactly one child, a simple-form grammar. -/
def isRoot (t : RNode) : Bool :=
  match t with
  | .mk .root _ _ [g] => isGrammarS g
  | _ => false

/-- simplifyRngAst: the eight passes in order, then the simple-form check.
fuel bounds the recursion of the passes modelled with a worklist; every
theorem instantiates it large enough for its input. -/
def simplifyRngAst (fuel : Nat) (t : RNode) : Except String RNode := do
  let t1 := moveNameAttributeToChild t
  let t2 := controlChildren t1
  let t3 ← replaceMixedOptionalAndZeroOrMore t2
  let t4 ← eliminateCombineAttribute fuel t3
  let t5 ← ensureOnlyOneGrammarElement fuel t4
  let t6 ← canonicalDefineAndElement fuel t5
  let t7 ← limitLocationsOfNotAllowed t6
  let t8 ← avoidEmptyInGroupSpots t7
  if isRoot t8 then pure t8 else .error "Not valid as simplified RelaxNG"

/-! Concrete grammars used by the claim theorems. -/

/-- An in-spec grammar with an empty start and one element define:
grammar(start(empty), define a = element p). -/
def grammarStartEmpty : RNode :=
  rb.root (rb.grammar (rb.start rb.empty) [rb.define "a" [rb.elemNamed "p" []]])

/-- An in-spec grammar whose start references b, and b references a:
grammar(start(ref b), define a = element p, define b = element q(ref a)).
Both defines are reachable from start. -/
def grammarStartRefB : RNode :=
  rb.root (rb.grammar (rb.start (rb.ref "b"))
    [rb.define "a" [rb.elemNamed "p" []],
     rb.define "b" [rb.elemNamed "q" [rb.ref "a"]]])

/-- A grammar with two start nodes, both lacking combine. -/
def grammarTwoStartsNoCombine : RNode :=
  .mk .root "" none
    [.mk .grammar "" none
      [.mk .start "" none [rb.text], .mk .start "" none [rb.empty]]]

/-- A grammar with two start nodes carrying different combine values. -/
def grammarTwoStartsDiffCombine : RNode :=
  .mk .root "" none
    [.mk .grammar "" none
      [.mk .start "" (some .choice) [rb.text],
       .mk .start "" (some .interleave) [rb.empty]]]

/-- The grammar of spec scenario 5:
grammar(start(optional(ref a)), define(a, elementNamed p)). -/
def scenario5Grammar : RNode :=
  rb.root (rb.grammar (rb.start (rb.optional [rb.ref "a"]))
    [rb.define "a" [rb.elemNamed "p" []]])

/-- An in-spec grammar whose start is ref a with a matching element
define. -/
def grammarStartRefA : RNode :=
  rb.root (rb.grammar (rb.start (rb.ref "a"))
    [rb.define "a" [rb.elemNamed "p" []]])

/-- An in-spec grammar with a text start and one (unreferenced) define. -/
def grammarStartText : RNode :=
  rb.root (rb.grammar (rb.start rb.text) [rb.define "b" [rb.elemNamed "q" []]])

/-! Helper lemmas shared by the claim theorems. -/

/-- Every call of getMapOfDefines throws (the destructuring bug). -/
theorem getMapOfDefines_always_errors (g : RNode) :
    ∃ e, getMapOfDefines g = .error e := by
  unfold getMapOfDefines
  cases g.children.get? 1
  · exact ⟨_, rfl⟩
  · exact ⟨_, rfl⟩

/-- removeUnreachableDefines builds its define table with getMapOfDefines
before visiting anything, so every call throws. -/
theorem removeUnreachableDefines_always_errors (t : RNode) :
    ∃ e, removeUnreachableDefines t = .error e := by
  unfold removeUnreachableDefines
  cases h : ensureTopLevelGrammar t with
  | error e => exact ⟨e, by simp [h, Bind.bind, Except.bind]⟩
  | ok t1 =>
    obtain ⟨e, he⟩ := getMapOfDefines_always_errors (topGrammar t1)
    exact ⟨e, by simp [h, he, Bind.bind, Except.bind]⟩

/-- canonicalDefineAndElement starts with removeUnreachableDefines, so
every call throws. -/
theorem canonicalDefineAndElement_always_errors (fuel : Nat) (t : RNode) :
    ∃ e, canonicalDefineAndElement fuel t = .error e := by
  unfold canonicalDefineAndElement
  obtain ⟨e, he⟩ := removeUnreachableDefines_always_errors t
  exact ⟨e, by simp [he, Bind.bind, Except.bind]⟩

/-- simplifyRngAst never returns: pass 6 (canonicalDefineAndElement)
throws on every input that earlier passes did not already throw on. -/
theorem simplifyRngAst_always_errors (fuel : Nat) (t : RNode) :
    ∃ e, simplifyRngAst fuel t = .error e := by
  unfold simplifyRngAst
  cases h3 :
      replaceMixedOptionalAndZeroOrMore (controlChildren (moveNameAttributeToChild t)) with
  | error e => exact ⟨e, by simp [h3, Bind.bind, Except.bind]⟩
  | ok t3 =>
    cases h4 : eliminateCombineAttribute fuel t3 with
    | error e => exact ⟨e, by simp [h3, h4, Bind.bind, Except.bind]⟩
    | ok t4 =>
      cases h5 : ensureOnlyOneGrammarElement fuel t4 with
      | error e => exact ⟨e, by simp [h3, h4, h5, Bind.bind, Except.bind]⟩
      | ok t5 =>
        obtain ⟨e, he⟩ := canonicalDefineAndElement_always_errors fuel t5
        exact ⟨e, by simp [h3, h4, h5, he, Bind.bind, Except.bind]⟩

/-- Matching the single pattern empty on a childless context either runs
out of fuel (fuel 0) or succeeds with the emptied default context. -/
theorem validateDetails_empty_eval (defs : Defs) (k : Nat) (log : Log) :
    validateDetails defs k ⟨[], []⟩ [rb.empty] log = .error .outOfFuel ∨
    validateDetails defs k ⟨[], []⟩ [rb.empty] log = .ok (allGoodNil, log) := by
  cases k with
  | zero => exact .inl rfl
  | succ m => exact .inr rfl

/-- The matcher burns any amount of fuel on zeroOrMore(empty) against a
childless context: the inner empty succeeds without consuming anything,
so chain-if-ok keeps re-entering the same zeroOrMore. -/
theorem validateDetails_zeroOrMore_empty_outOfFuel (defs : Defs) :
    ∀ n log, validateDetails defs n ⟨[], []⟩
      [.mk .zeroOrMore "" none [rb.empty]] log = .error .outOfFuel := by
  intro n
  induction n with
  | zero => intro log; rfl
  | succ k ih =>
    intro log
    simp only [validateDetails, RNode.kind, RNode.children]
    rcases validateDetails_empty_eval defs k log with h | h <;>
      simp [fallback, chainIfOk2, h, ih, allGoodNil, concat2,
        Bind.bind, Except.bind]

/-! Claim theorems. -/

/-- C1: the spec claims that for every in-spec full-form grammar G,
simplifyRngAst(G) returns normally and isRoot accepts the result. The code
instead throws on every input: the in-spec grammar
grammar(start(empty), define a = element p) makes simplifyRngAst throw the
TypeError raised in getMapOfDefines (pass 6), whose destructuring
const [, _defines] = grammar.children lacks a rest element and iterates a
non-iterable. -/
theorem simplifyRngAst_throws_on_inSpec_grammar :
    simplifyRngAst 30 grammarStartEmpty =
      .error "TypeError: _defines is not iterable" := by decide

/-- C2: the spec describes the reachability step as reordering reached
defines after start and dropping unreached ones. removeUnreachableDefines
instead throws before visiting any node, on the grammar
grammar(start(ref b), define a = element p, define b = element q(ref a)):
its define table call getMapOfDefines always throws. (Beyond the throw,
the visit itself contradicts its comments: children.slice(0, index)
discards its result, and splice(newIndex, 1, define) deletes the define at
newIndex instead of inserting.) -/
theorem removeUnreachableDefines_throws_before_visiting :
    removeUnreachableDefines grammarStartRefB =
      .error "TypeError: _defines is not iterable" := by decide

/-- C3 counterexample: the combine-elimination pass does not raise the
messages the claim states. On two starts without combine the message is
"Cannot have multiple start elements without specifying combine" (the
errorName argument is interpolated), not "Cannot have multiple starts
without specifying combine"; on two starts with different combine values
the message is the literal single-quoted template
"Cannot have multiple ${errorName} with different combine values", not
"Cannot have multiple starts with different combine values". -/
theorem eliminateCombine_message_differs_from_claim :
    (eliminateCombineAttribute 9 grammarTwoStartsNoCombine =
        .error "Cannot have multiple start elements without specifying combine" ∧
      "Cannot have multiple start elements without specifying combine" ≠
        "Cannot have multiple starts without specifying combine") ∧
    (eliminateCombineAttribute 9 grammarTwoStartsDiffCombine =
        .error "Cannot have multiple ${errorName} with different combine values" ∧
      "Cannot have multiple ${errorName} with different combine values" ≠
        "Cannot have multiple starts with different combine values") := by
  exact ⟨⟨by decide, by decide⟩, by decide, by decide⟩

/-- C3 amended: on a grammar with two start nodes both lacking combine the
pass raises exactly "Cannot have multiple start elements without
specifying combine"; with two different non-absent combine values it
raises exactly the un-interpolated literal "Cannot have multiple
${errorName} with different combine values" (the source uses single
quotes around that template). Universally in the start payloads. -/
theorem eliminateCombine_actual_messages (n : Nat) (a b : List RNode) :
    eliminateCombineAttribute (n + 2)
        (.mk .root "" none [.mk .grammar "" none
          [.mk .start "" none a, .mk .start "" none b]]) =
      .error "Cannot have multiple start elements without specifying combine" ∧
    eliminateCombineAttribute (n + 2)
        (.mk .root "" none [.mk .grammar "" none
          [.mk .start "" (some .choice) a,
           .mk .start "" (some .interleave) b]]) =
      .error "Cannot have multiple ${errorName} with different combine values" :=
  ⟨rfl, rfl⟩

/-- C4 counterexample: the spec scenario claims simplifyRngAst on
grammar(start(optional(ref a)), define(a, elementNamed p)) yields a
grammar with a define named elem__1; in fact no tree is yielded at all
(the pipeline throws in pass 6). -/
theorem simplify_scenario5_yields_nothing :
    ¬ ∃ u, simplifyRngAst 30 scenario5Grammar = .ok u := by
  intro ⟨u, hu⟩
  rw [show simplifyRngAst 30 scenario5Grammar =
      .error "TypeError: _defines is not iterable" by decide] at hu
  cases hu

/-- C4 amended: simplifyRngAst on the scenario-5 grammar throws the
TypeError of getMapOfDefines instead of producing a simplified tree.
(Were that call repaired, the element of define a would stay under the
existing define, so the surviving define would keep the name "a" - the
element-lifting step only lifts elements that are not the child of a
define - rather than the claimed fresh name elem__1.) -/
theorem simplify_scenario5_throws :
    simplifyRngAst 30 scenario5Grammar =
      .error "TypeError: _defines is not iterable" := by decide

/-- C7: the reference-integrity claim is conditional on simplification
succeeding, but no simplification ever succeeds: simplifyRngAst throws on
every input and every fuel bound, so no simplified tree exists for the
property to hold of. -/
theorem simplify_never_succeeds (fuel : Nat) (t : RNode) :
    ∃ e, simplifyRngAst fuel t = .error e :=
  simplifyRngAst_always_errors fuel t

/-- C8: idempotence of simplification is likewise conditional on a first
successful run; on the in-spec grammar grammar(start(text), define b =
element q) the first run already throws, so there is no simplified tree to
re-simplify. -/
theorem simplify_idempotence_unrealizable :
    simplifyRngAst 30 grammarStartText =
      .error "TypeError: _defines is not iterable" := by decide

/-- C9 counterexample: the matcher does not terminate on every finite
context and pattern list over the kinds it handles: on a childless context
and the single pattern zeroOrMore(empty) no fuel bound suffices. -/
theorem validator_termination_cex :
    ¬ ValidatorTerminatesOn [] ⟨[], []⟩
      [.mk .zeroOrMore "" none [rb.empty]] := by
  intro h
  obtain ⟨fuel, hne⟩ := h
  exact hne (validateDetails_zeroOrMore_empty_outOfFuel [] fuel [])

/-- C9 amended: chain-if-ok stops at the first failing sub-step, but a
sub-step that succeeds without consuming input recurses forever:
validateDetails diverges on zeroOrMore(empty) against a childless context
(for every fuel bound it is still running), for any define table and
annotation log. -/
theorem validateDetails_zeroOrMore_empty_diverges (defs : Defs) (n : Nat)
    (log : Log) :
    validateDetails defs n ⟨[], []⟩ [.mk .zeroOrMore "" none [rb.empty]] log =
      .error .outOfFuel :=
  validateDetails_zeroOrMore_empty_outOfFuel defs n log

/-- C10: matching the single pattern empty on a context with no children
returns ok with no problems and an emptied attribute map, whatever
attributes the context holds (allGood() rebuilds the default empty
context); unexpected finds nothing in the emptied context, so attributes
left unconsumed when an element content is matched against empty are
silently dropped and never reported as unexpected attributes. -/
theorem validateDetails_empty_discards_attributes (defs : Defs) (n : Nat)
    (attrs : List (String × String)) (log : Log) (X : String) :
    validateDetails defs (n + 1) ⟨[], attrs⟩ [rb.empty] log =
      .ok (allGoodNil, log) ∧
    unexpected ⟨[], []⟩ = [] ∧
    validateDetails defs (n + 2) ⟨[.element X attrs []], []⟩
        [.mk .elementNamed X none [rb.empty]] log =
      .ok (⟨true, [], ⟨[], []⟩⟩, log) := by
  refine ⟨rfl, rfl, ?_⟩
  simp [validateDetails, RNode.kind, RNode.sval, RNode.children, rb.empty,
    endValidationOnNode, addProblems, unexpected, allGood, allGoodNil,
    elemCtx, Bind.bind, Except.bind]

/-- C5: validateNode on an element named X against elemNamed(X) with no
further patterns (the builder appends the implicit empty) is plausible and
leaves no problem annotations; against elemNamed(Y) with Y different from
X it is not plausible and the collected annotations are exactly the name
mismatch and the unexpected-element message, both on the target. -/
theorem validateNode_element_name_agreement (defs : Defs) (X Y : String)
    (h : Y ≠ X) (n : Nat) :
    validateNode defs (n + 2) (.element X [] []) (rb.elemNamed X []) =
      .ok (true, []) ∧
    validateNode defs (n + 2) (.element X [] []) (rb.elemNamed Y []) =
      .ok (false,
        [(.element X [] [], expected.elem Y X),
         (.element X [] [], expected.unexpectedElem X)]) := by
  constructor
  · simp [validateNode, validateDetails, rb.elemNamed, rb.empty, RNode.kind,
      RNode.sval, RNode.children, endValidationOnNode, addProblems,
      unexpected, allGood, allGoodNil, elemCtx, concat2, invalid,
      Bind.bind, Except.bind, pure, Except.pure]
  · simp [validateNode, validateDetails, rb.elemNamed, rb.empty, RNode.kind,
      RNode.sval, RNode.children, endValidationOnNode, addProblems,
      unexpected, allGood, allGoodNil, elemCtx, concat2, invalid,
      Ne.symm h, Bind.bind, Except.bind, pure, Except.pure]

/-- C5 witness at X = p, Y = moo (the names of the test suite). -/
theorem validateNode_element_name_agreement_witness :
    validateNode [] 2 (.element "p" [] []) (rb.elemNamed "p" []) =
      .ok (true, []) ∧
    validateNode [] 2 (.element "p" [] []) (rb.elemNamed "moo" []) =
      .ok (false,
        [(.element "p" [] [], expected.elem "moo" "p"),
         (.element "p" [] [], expected.unexpectedElem "p")]) :=
  validateNode_element_name_agreement [] "p" "moo" (by decide) 0

/-- C6: matching choice(A, B) tries each alternative chained with the rest
in order; the first chained alternative with ok results determines the
outcome, the match is ok exactly when one of the two chained alternatives
is ok, and when both fail the result is invalid with the single problem
"Could not find matching choice" (the failed alternatives' problems are
not part of the result), on the log the failed tries left behind. -/
theorem validateDetails_choice_tries_alternatives_in_order
    (defs : Defs) (n : Nat) (ctx : Ctx) (a b : RNode) (rest : List RNode)
    (log : Log) (r1 r2 : VRes) (l1 l2 : Log)
    (h1 : chain2 ctx (fun c l => validateDetails defs n c [a] l)
        (fun c l => validateDetails defs n c rest l) log = .ok (r1, l1))
    (h2 : chain2 ctx (fun c l => validateDetails defs n c [b] l)
        (fun c l => validateDetails defs n c rest l) l1 = .ok (r2, l2)) :
    (r1.ok = true →
      validateDetails defs (n + 1) ctx (.mk .choice "" none [a, b] :: rest)
        log = .ok (r1, l1)) ∧
    (r1.ok = false → r2.ok = true →
      validateDetails defs (n + 1) ctx (.mk .choice "" none [a, b] :: rest)
        log = .ok (r2, l2)) ∧
    (r1.ok = false → r2.ok = false →
      validateDetails defs (n + 1) ctx (.mk .choice "" none [a, b] :: rest)
        log = .ok (invalid ctx expected.noMatch, l2)) ∧
    (∃ r l, validateDetails defs (n + 1) ctx
        (.mk .choice "" none [a, b] :: rest) log = .ok (r, l) ∧
      r.ok = (r1.ok || r2.ok)) := by
  have base : validateDetails defs (n + 1) ctx
      (.mk .choice "" none [a, b] :: rest) log =
      (if r1.ok then .ok (r1, l1)
       else if r2.ok then .ok (r2, l2)
       else .ok (invalid ctx expected.noMatch, l2)) := by
    simp only [validateDetails, RNode.kind, RNode.children, List.map,
      List.cons_append, List.nil_append, fallback]
    rw [h1]
    by_cases hb1 : r1.ok
    · simp [hb1]
    · simp only [hb1, Bool.false_eq_true, if_false]
      rw [h2]
  refine ⟨?_, ?_, ?_, ?_⟩
  · intro hb1; simp [base, hb1]
  · intro hb1 hb2; simp [base, hb1, hb2]
  · intro hb1 hb2; simp [base, hb1, hb2]
  · cases hb1 : r1.ok <;> cases hb2 : r2.ok
    · exact ⟨invalid ctx expected.noMatch, l2,
        by simp [base, hb1, hb2], by simp [invalid, hb1, hb2]⟩
    · exact ⟨r2, l2, by simp [base, hb1, hb2], by simp [hb1, hb2]⟩
    · exact ⟨r1, l1, by simp [base, hb1], by simp [hb1]⟩
    · exact ⟨r1, l1, by simp [base, hb1], by simp [hb1]⟩

/-- C6 witness: a concrete element p target against
choice(elemNamed b, elemNamed q) with no rest; both alternatives fail, the
result is the single no-match problem. -/
theorem validateDetails_choice_tries_alternatives_in_order_witness :
    ((⟨false, [expected.elem "b" "p"],
        ⟨[XastNode.element "p" [] []], []⟩⟩ : VRes).ok = true →
      validateDetails [] 4 ⟨[XastNode.element "p" [] []], []⟩
        (.mk .choice "" none
          [.mk .elementNamed "b" none [rb.empty],
           .mk .elementNamed "q" none [rb.empty]] :: []) [] =
        .ok (⟨false, [expected.elem "b" "p"],
          ⟨[XastNode.element "p" [] []], []⟩⟩, [])) ∧
    ((⟨false, [expected.elem "b" "p"],
        ⟨[XastNode.element "p" [] []], []⟩⟩ : VRes).ok = false →
      (⟨false, [expected.elem "q" "p"],
        ⟨[XastNode.element "p" [] []], []⟩⟩ : VRes).ok = true →
      validateDetails [] 4 ⟨[XastNode.element "p" [] []], []⟩
        (.mk .choice "" none
          [.mk .elementNamed "b" none [rb.empty],
           .mk .elementNamed "q" none [rb.empty]] :: []) [] =
        .ok (⟨false, [expected.elem "q" "p"],
          ⟨[XastNode.element "p" [] []], []⟩⟩, [])) ∧
    ((⟨false, [expected.elem "b" "p"],
        ⟨[XastNode.element "p" [] []], []⟩⟩ : VRes).ok = false →
      (⟨false, [expected.elem "q" "p"],
        ⟨[XastNode.element "p" [] []], []⟩⟩ : VRes).ok = false →
      validateDetails [] 4 ⟨[XastNode.element "p" [] []], []⟩
        (.mk .choice "" none
          [.mk .elementNamed "b" none [rb.empty],
           .mk .elementNamed "q" none [rb.empty]] :: []) [] =
        .ok (invalid ⟨[XastNode.element "p" [] []], []⟩ expected.noMatch,
          [])) ∧
    (∃ r l, validateDetails [] 4 ⟨[XastNode.element "p" [] []], []⟩
        (.mk .choice "" none
          [.mk .elementNamed "b" none [rb.empty],
           .mk .elementNamed "q" none [rb.empty]] :: []) [] =
        .ok (r, l) ∧
      r.ok = ((⟨false, [expected.elem "b" "p"],
          ⟨[XastNode.element "p" [] []], []⟩⟩ : VRes).ok ||
        (⟨false, [expected.elem "q" "p"],
          ⟨[XastNode.element "p" [] []], []⟩⟩ : VRes).ok)) :=
  validateDetails_choice_tries_alternatives_in_order [] 3
    ⟨[XastNode.element "p" [] []], []⟩
    (.mk .elementNamed "b" none [rb.empty])
    (.mk .elementNamed "q" none [rb.empty]) [] []
    ⟨false, [expected.elem "b" "p"], ⟨[XastNode.element "p" [] []], []⟩⟩
    ⟨false, [expected.elem "q" "p"], ⟨[XastNode.element "p" [] []], []⟩⟩
    [] [] (by decide) (by decide)
